import Mathlib

/-!
Shallow embedding of the yomi download pipeline (src/yomi) and proofs about it.

Python strings are modelled as Lean `String` values, but every operation on
them is re-implemented structurally over `String.data : List Char` so that the
kernel can evaluate concrete instances.  Python `float` values arising from
decimal literals are modelled exactly as scaled integers (`PyNum`).  Network
and filesystem effects are modelled by explicit environment parameters
(per-attempt HTTP outcomes, per-page download results, per-file decode
results); the pure control flow around them is translated from the source.
-/

namespace Yomi

/- ### Generic character/string helpers (models of the Python builtins used) -/

/-- Model of Python substring containment `sub in s` (for nonempty `sub`). -/
def containsSub (s sub : List Char) : Bool :=
  match s with
  | [] => sub.isEmpty
  | _ :: rest => sub.isPrefixOf s || containsSub rest sub

/-- Model of `str.startswith`. -/
def strStartsWith (s p : String) : Bool :=
  p.data.isPrefixOf s.data

/-- Model of `str.endswith`. -/
def strEndsWith (s p : String) : Bool :=
  p.data.isSuffixOf s.data

/-- ASCII model of `str.lower` on one character. -/
def lowerChar (c : Char) : Char :=
  if 'A' ≤ c ∧ c ≤ 'Z' then Char.ofNat (c.toNat + 32) else c

/-- ASCII model of `str.lower`. -/
def pyLower (s : String) : String :=
  ⟨s.data.map lowerChar⟩

/-- Model of `str.strip` (ASCII whitespace). -/
def pyStrip (s : String) : String :=
  ⟨((s.data.dropWhile Char.isWhitespace).reverse.dropWhile Char.isWhitespace).reverse⟩

/-- Hexadecimal digit value, used by the percent-decoder. -/
def hexVal (c : Char) : Option Nat :=
  if '0' ≤ c ∧ c ≤ '9' then some (c.toNat - 48)
  else if 'a' ≤ c ∧ c ≤ 'f' then some (c.toNat - 87)
  else if 'A' ≤ c ∧ c ≤ 'F' then some (c.toNat - 55)
  else none

/-- Percent-decoding of a character list; malformed escapes are kept verbatim.
Models `urllib.parse.unquote` on ASCII escape sequences (multi-byte UTF-8
escapes are outside the model). -/
def percentDecode : List Char → List Char
  | '%' :: a :: b :: rest =>
    match hexVal a, hexVal b with
    | some x, some y => Char.ofNat (16 * x + y) :: percentDecode rest
    | _, _ => '%' :: percentDecode (a :: b :: rest)
  | c :: rest => c :: percentDecode rest
  | [] => []

/-- Model of `urllib.parse.unquote` (ASCII escapes). -/
def pyUnquote (s : String) : String :=
  ⟨percentDecode s.data⟩

/-- Break a character list at the first occurrence of `sep`, returning the
part before it and the part after it, or `none` if `sep` does not occur. -/
def breakOnList (sep : List Char) : List Char → Option (List Char × List Char)
  | [] => if sep.isEmpty then some ([], []) else none
  | c :: rest =>
    if sep.isPrefixOf (c :: rest) then some ([], (c :: rest).drop sep.length)
    else
      match breakOnList sep rest with
      | some (pre, post) => some (c :: pre, post)
      | none => none

/-- Model of Python `str.split` with a single-character separator. -/
def splitOnChar (sep : Char) : List Char → List (List Char)
  | [] => [[]]
  | c :: rest =>
    if c = sep then [] :: splitOnChar sep rest
    else
      match splitOnChar sep rest with
      | [] => [[c]]
      | p :: ps => (c :: p) :: ps

/-- Decimal digits of a natural number, most significant first; the first
argument is structural fuel (any value at least `n` gives the digits). -/
def natRevDigits : Nat → Nat → List Char
  | 0, _ => []
  | _, 0 => []
  | fuel + 1, n => Char.ofNat (n % 10 + 48) :: natRevDigits fuel (n / 10)

/-- Model of Python `str(n)` for a natural number. -/
def natToString (n : Nat) : String :=
  if n = 0 then "0" else ⟨(natRevDigits n n).reverse⟩

/- ### Exact model of the Python floats used by the pipeline -/

/-- Exact scaled-decimal number: the value `mant / 10 ^ frac`.  Models the
Python floats produced by parsing decimal literals; arithmetic is exact
rather than IEEE-rounded, which agrees with Python on the short decimal
literals handled by the range filter. -/
structure PyNum where
  mant : Int
  frac : Nat
deriving DecidableEq

/-- Embed a natural number. -/
def pyNat (n : Nat) : PyNum := ⟨n, 0⟩

/-- Comparison `a <= b` on scaled decimals (cross-multiplied). -/
def pyNumLe (a b : PyNum) : Bool :=
  decide (a.mant * 10 ^ b.frac ≤ b.mant * 10 ^ a.frac)

/-- Comparison `a < b` on scaled decimals (cross-multiplied). -/
def pyNumLt (a b : PyNum) : Bool :=
  decide (a.mant * 10 ^ b.frac < b.mant * 10 ^ a.frac)

/-- Leading decimal digits of a character list, with the rest. -/
def takeDigits : List Char → List Char × List Char
  | [] => ([], [])
  | c :: rest =>
    if c.isDigit then
      let (d, r) := takeDigits rest
      (c :: d, r)
    else ([], c :: rest)

/-- Numeric value of a digit string. -/
def digitsVal (ds : List Char) : Nat :=
  ds.foldl (fun a c => 10 * a + (c.toNat - 48)) 0

/-- Value of a parsed mantissa `ip . fp` with sign. -/
def mkPyNum (sign : Int) (ip fp : List Char) : PyNum :=
  ⟨sign * ((digitsVal ip * 10 ^ fp.length + digitsVal fp : Nat) : Int), fp.length⟩

/-- Apply a decimal exponent to a scaled decimal. -/
def applyExp (x : PyNum) (e : Int) : PyNum :=
  if 0 ≤ e then ⟨x.mant * 10 ^ e.toNat, x.frac⟩ else ⟨x.mant, x.frac + (-e).toNat⟩

/-- Parse the exponent tail `[+|-] digits` of a float literal; the whole
remainder must be consumed. -/
def parseExpTail (cs : List Char) : Option Int :=
  let (sign, cs) : Int × List Char :=
    match cs with
    | '+' :: r => (1, r)
    | '-' :: r => (-1, r)
    | r => (1, r)
  let (ds, rest) := takeDigits cs
  if ds.isEmpty then none
  else if rest.isEmpty then some (sign * (digitsVal ds : Int)) else none

/-- Model of Python `float(s)` on finite decimal literals: optional
surrounding whitespace, optional sign, digits with optional fraction,
optional exponent.  The special forms `inf`, `nan`, underscore grouping and
hex floats are outside the model; the result is exact rather than rounded
to binary. -/
def parsePyFloat (s : String) : Option PyNum :=
  let cs := (pyStrip s).data
  let (sign, cs) : Int × List Char :=
    match cs with
    | '+' :: r => (1, r)
    | '-' :: r => (-1, r)
    | r => (1, r)
  let (ip, cs) := takeDigits cs
  let (fp, cs) :=
    match cs with
    | '.' :: r => takeDigits r
    | r => ([], r)
  if ip.isEmpty && fp.isEmpty then none
  else
    match cs with
    | [] => some (mkPyNum sign ip fp)
    | 'e' :: r =>
      match parseExpTail r with
      | some e => some (applyExp (mkPyNum sign ip fp) e)
      | none => none
    | 'E' :: r =>
      match parseExpTail r with
      | some e => some (applyExp (mkPyNum sign ip fp) e)
      | none => none
    | _ => none

/- ### RetryingFetcher: BaseExtractor.download_image (src/yomi/extractors/base.py) -/

/-- Outcome of one HTTP GET attempt: a raised exception, or a response with
its status code, body length, and the on-disk size of the written file. -/
inductive AttemptOutcome where
  | exn : AttemptOutcome
  | resp (status : Nat) (bodyLen : Nat) (diskSize : Nat) : AttemptOutcome
deriving DecidableEq

/-- Acceptance test of `download_image`: status 200, nonempty body, and the
written file is nonempty on disk; an exception is never accepted. -/
def acceptedAttempt : AttemptOutcome → Bool
  | .exn => false
  | .resp status bodyLen diskSize => status == 200 && bodyLen != 0 && diskSize != 0

/-- Model of `f"\x7bparsed_uri.scheme\x7d://\x7bparsed_uri.netloc\x7d/"` via
`urllib.parse.urlparse`, for URLs of the shape `scheme://host/...`. -/
def rootDomain (url : String) : String :=
  match breakOnList ['/', '/'] url.data with
  | some (pre, post) =>
    match pre.reverse with
    | ':' :: schemeRev =>
      ⟨schemeRev.reverse ++ [':', '/', '/'] ++ post.takeWhile (fun c => c ≠ '/') ++ ['/']⟩
    | _ => ":///"
  | none => ":///"

/-- Referer used by the first strategy: the chapter hint if present and
nonempty (Python truthiness), else the empty string. -/
def refererHint (hint : Option String) : String :=
  match hint with
  | some h => if h.data.isEmpty then "" else h
  | none => ""

/-- Ordered Referer strategies of `download_image`: chapter hint, empty,
root domain of the (stripped) asset URL. -/
def strategies (url : String) (hint : Option String) : List String :=
  [refererHint hint, "", rootDomain (pyStrip url)]

/-- Strategy loop of `download_image`: try each Referer in order, recording
the attempted headers; stop at the first accepted outcome.  `env i` is the
outcome of the `i`-th attempt. -/
def attemptLoop (env : Nat → AttemptOutcome) : Nat → List String → Bool × List String
  | _, [] => (false, [])
  | i, h :: rest =>
    if acceptedAttempt (env i) then (true, [h])
    else
      let r := attemptLoop env (i + 1) rest
      (r.1, h :: r.2)

/-- Model of `BaseExtractor.download_image`: returns the success flag and the
list of Referer headers actually attempted, in order. -/
def download_image (env : Nat → AttemptOutcome) (url : String) (hint : Option String) :
    Bool × List String :=
  attemptLoop env 0 (strategies url hint)

/- ### Packager (src/yomi/utils/archive.py) -/

/-- Code-point lexicographic order on filenames; the order used by Python
`sorted` on strings. -/
def fileLe (a b : String) : Prop := a.data ≤ b.data

instance : DecidableRel fileLe := fun a b => inferInstanceAs (Decidable (a.data ≤ b.data))

instance : IsTotal String fileLe := ⟨fun a b => le_total a.data b.data⟩

instance : IsTrans String fileLe := ⟨fun _ _ _ h1 h2 => le_trans h1 h2⟩

instance : IsAntisymm String fileLe :=
  ⟨fun a b h1 h2 => by cases a; cases b; exact congrArg String.mk (le_antisymm h1 h2)⟩

/-- Model of Python `sorted` on filenames.  `sorted` is a stable sort and
`fileLe` is a total order whose ties are only between equal strings, so any
sorting algorithm computes the same list; insertion sort is used because the
kernel can evaluate it. -/
def pySorted (files : List String) : List String :=
  List.insertionSort fileLe files

/-- Model of `create_cbz_archive`, with the chapter directory given as its
list of filenames (chapter folders are flat) and metadata as a key/value
list.  Returns the success flag and the archive entries in write order: the
files sorted lexicographically, then `ComicInfo.xml` when the metadata record
is truthy.  I/O exceptions (the `False` branch of the source) are outside
the model. -/
def create_cbz_archive (files : List String) (metadata : List (String × String)) :
    Bool × List String :=
  (true, pySorted files ++ if metadata.isEmpty then [] else ["ComicInfo.xml"])

/-- File-extension acceptance test of `create_pdf_document`. -/
def isImageFile (f : String) : Bool :=
  strEndsWith (pyLower f) ".jpg" || strEndsWith (pyLower f) ".jpeg" ||
    strEndsWith (pyLower f) ".png" || strEndsWith (pyLower f) ".webp"

/-- Webp test of `create_pdf_document`. -/
def isWebpFile (f : String) : Bool :=
  strEndsWith (pyLower f) ".webp"

/-- Model of `os.path.splitext(f)[0] + ".jpg"` for a file whose name ends in
the 5-character extension `.webp`. -/
def webpToJpg (f : String) : String :=
  ⟨f.data.take (f.data.length - 5) ++ ['.', 'j', 'p', 'g']⟩

/-- Result of `create_pdf_document`: the success flag, the image paths
composed into the PDF in order, and the webp originals removed from disk. -/
structure PdfResult where
  ok : Bool
  pages : List String
  removed : List String
deriving DecidableEq

/-- Image-collection loop of `create_pdf_document` over the sorted filenames:
accepted non-webp files are appended; a webp file that decodes is transcoded
to an RGB JPEG sibling, the sibling is appended and the original deleted; a
webp file that fails to decode is skipped. -/
def pdfCollect (decodeOk : String → Bool) : List String → List String × List String
  | [] => ([], [])
  | f :: rest =>
    let r := pdfCollect decodeOk rest
    if isImageFile f then
      if isWebpFile f then
        if decodeOk f then (webpToJpg f :: r.1, f :: r.2) else r
      else (f :: r.1, r.2)
    else r

/-- Model of `create_pdf_document`: collect the accepted images from the
lexicographically sorted directory listing, transcoding webp files, and fail
exactly when no image was collected.  `decodeOk` models whether the image
library can decode a given webp file. -/
def create_pdf_document (decodeOk : String → Bool) (files : List String) : PdfResult :=
  let collected := pdfCollect decodeOk (pySorted files)
  ⟨!collected.1.isEmpty, collected.1, collected.2⟩

/- ### SiteResolver: YomiCore._resolve_target (src/yomi/core.py) -/

/-- A sites-table record as consumed before finalization: only the display
name participates in resolution.  The remaining fields (type, base domain,
url pattern, direct url) are consumed by `_finalize_target`, which the model
treats as opaque: resolution stops at the selected key. -/
structure SiteData where
  name : String
deriving DecidableEq

/-- Normalization applied to non-URL input: percent-decode, strip, lowercase. -/
def normalizeInput (s : String) : String :=
  pyLower (pyStrip (pyUnquote s))

/-- Key membership in the sites table (Python `clean_input in self.sites_config`;
dict keys are unique, so the first binding decides). -/
def lookupKey (config : List (String × SiteData)) (k : String) : Option SiteData :=
  match config with
  | [] => none
  | (k', d) :: rest => if k' = k then some d else lookupKey rest k

/-- Fuzzy score of one site: `max(ratio(input, key), ratio(input, name.lower())) * 100`.
`ratio` abstracts `difflib.SequenceMatcher(None, a, b).ratio()`, a library
function external to the repository. -/
def siteScore (ratio : String → String → PyNum) (clean key : String) (d : SiteData) : PyNum :=
  let rk := ratio clean key
  let rn := ratio clean (pyLower d.name)
  let m := if pyNumLt rk rn then rn else rk
  ⟨m.mant * 100, m.frac⟩

/-- Where resolution ended: a direct URL returned unchanged, a selected table
key handed to `_finalize_target`, the raw input returned as a literal URL, or
a cancelled prompt. -/
inductive ResOutcome where
  | direct (s : String)
  | finalized (key : String)
  | literal (s : String)
  | cancelled
deriving DecidableEq

/-- Observable trace of one `_resolve_target` call: its outcome, the number
of similarity ratios computed, and whether the selection prompt was shown. -/
structure ResolveTrace where
  outcome : ResOutcome
  scoresComputed : Nat
  prompted : Bool
deriving DecidableEq

/-- Model of `YomiCore._resolve_target`.  `ratio` abstracts the similarity
function, `choice` the number entered at the selection prompt (the prompt
restricts it to 0..len(options)).  Scored candidates keep table order, are
filtered by score > 40, and are sorted by score descending; Python
`list.sort` is stable and insertion sort is stable, so ties keep table
order in both. -/
def resolveTarget (ratio : String → String → PyNum) (config : List (String × SiteData))
    (choice : Nat) (input : String) : ResolveTrace :=
  if strStartsWith input "http" then ⟨.direct input, 0, false⟩
  else
    let clean := normalizeInput input
    if (lookupKey config clean).isSome then ⟨.finalized clean, 0, false⟩
    else
      let scored := config.map fun p => (siteScore ratio clean p.1 p.2, p.1, p.2.name)
      let kept := scored.filter fun t => pyNumLt (pyNat 40) t.1
      let sortedMatches :=
        List.insertionSort (fun a b : PyNum × String × String => pyNumLe b.1 a.1 = true) kept
      let n := 2 * config.length
      match sortedMatches with
      | [] => ⟨.literal input, n, false⟩
      | top :: _ =>
        if pyNumLe (pyNat 80) top.1 then ⟨.finalized top.2.1, n, false⟩
        else
          let options := sortedMatches.take 5
          if choice = 0 then ⟨.cancelled, n, true⟩
          else
            match options[choice - 1]? with
            | some o => ⟨.finalized o.2.1, n, true⟩
            | none => ⟨.cancelled, n, true⟩

/-- Spec-side predicate for the words "starts with a URL scheme" in C7: an
RFC 3986 scheme (a letter followed by letters, digits, `+`, `-`, `.`)
followed by `://`. -/
def startsWithUrlScheme (s : String) : Bool :=
  match breakOnList [':', '/', '/'] s.data with
  | some (scheme, _) =>
    !scheme.isEmpty && (scheme.headD 'a').isAlpha &&
      scheme.all fun c => c.isAlphanum || c = '+' || c = '-' || c = '.'
  | none => false

/- ### Range filter: YomiCore._filter_chapters (src/yomi/core.py) -/

/-- A chapter as handed around by the orchestrator. -/
structure Chapter where
  title : String
  url : String
deriving DecidableEq

/-- First match of the regex `(\d+(\.\d+)?)` in a character list, as an exact
decimal: scan to the first digit, take the maximal digit run, then an
optional fraction introduced by a dot followed by at least one digit. -/
def scanNumber : List Char → Option PyNum
  | [] => none
  | c :: rest =>
    if c.isDigit then
      let (ds, r) := takeDigits (c :: rest)
      match r with
      | '.' :: r2 =>
        let (fs, _) := takeDigits r2
        if fs.isEmpty then some (mkPyNum 1 ds [])
        else some (mkPyNum 1 ds fs)
      | _ => some (mkPyNum 1 ds [])
    else scanNumber rest

/-- First decimal number occurring in a chapter title (`re.search` in the
source), or `none` when the title contains no digit. -/
def firstNumber (title : String) : Option PyNum :=
  scanNumber title.data

/-- Parse of the range string: split on `-`, `float` the first part, and
`float` the second part when present, else reuse the first.  `none` models
the exception path (caught by the source, which then returns the unfiltered
list). -/
def parseRange (rs : String) : Option (PyNum × PyNum) :=
  match splitOnChar '-' rs.data with
  | [] => none
  | p0 :: rest =>
    match parsePyFloat ⟨p0⟩ with
    | none => none
    | some a =>
      match rest with
      | [] => some (a, a)
      | p1 :: _ =>
        match parsePyFloat ⟨p1⟩ with
        | none => none
        | some b => some (a, b)

/-- Membership test of one chapter in an active range: the first decimal
number of the title must exist and lie within the bounds. -/
def chapterInRange (a b : PyNum) (c : Chapter) : Bool :=
  match firstNumber c.title with
  | some n => pyNumLe a n && pyNumLe n b
  | none => false

/-- Model of `YomiCore._filter_chapters`: no range (or an empty string, which
is falsy in Python) keeps the whole list; a range that fails to parse keeps
the whole list (the exception path); otherwise keep exactly the chapters in
range. -/
def filter_chapters (chapters : List Chapter) (range_str : Option String) :
    List Chapter :=
  match range_str with
  | none => chapters
  | some rs =>
    if rs.data.isEmpty then chapters
    else
      match parseRange rs with
      | none => chapters
      | some (a, b) => chapters.filter (chapterInRange a b)

/- ### Orchestrator: YomiCore._download_single_chapter (src/yomi/core.py) -/

/-- Output format of a run. -/
inductive OutFormat where
  | folder
  | pdf
  | cbz
deriving DecidableEq

/-- Extension inferred from a page URL: `.png` or `.webp` as a substring of
the lowercased URL, else `jpg`. -/
def pageExt (url : String) : String :=
  if containsSub (pyLower url).data ".png".data then "png"
  else if containsSub (pyLower url).data ".webp".data then "webp"
  else "jpg"

/-- Model of the Python format `f"\x7bidx+1:03d\x7d"`: decimal digits padded
with zeros to width 3. -/
def pad3 (n : Nat) : String :=
  let s := (natToString n).data
  ⟨List.replicate (3 - s.length) '0' ++ s⟩

/-- Page filename written for page index `idx` (0-based) of URL `url`. -/
def pageFileName (idx : Nat) (url : String) : String :=
  ⟨(pad3 (idx + 1)).data ++ '.' :: (pageExt url).data⟩

/-- Files present in the chapter folder after the download fan-out: one file
per page whose download succeeded.  `download_image` writes the file exactly
when it reports success, and the gathered results are not inspected by the
orchestrator. -/
def writtenFiles (pages : List String) (dlOk : Nat → Bool) : List String :=
  pages.enum.filterMap fun p => if dlOk p.1 then some (pageFileName p.1 p.2) else none

/-- Observable outcome of `_download_single_chapter` for one chapter: whether
`mark_completed` was called on the history store, the entries of the archive
produced (if any), and whether the page folder was deleted. -/
structure ChapterOutcome where
  marked : Bool
  archiveEntries : Option (List String)
  folderDeleted : Bool
deriving DecidableEq

/-- Model of `YomiCore._download_single_chapter` for a chapter not already in
the history store: an empty page list returns early; otherwise the page
downloads run (results ignored), then the folder is packaged per format; on
packaging success the folder is deleted and the chapter marked completed;
the `folder` format packages nothing and always marks. -/
def downloadSingleChapter (fmt : OutFormat) (decodeOk : String → Bool)
    (pages : List String) (dlOk : Nat → Bool) (meta : List (String × String)) :
    ChapterOutcome :=
  if pages.isEmpty then ⟨false, none, false⟩
  else
    let files := writtenFiles pages dlOk
    match fmt with
    | .pdf =>
      let r := create_pdf_document decodeOk files
      if r.ok then ⟨true, some r.pages, true⟩ else ⟨false, none, false⟩
    | .cbz =>
      let r := create_cbz_archive files meta
      if r.1 then ⟨true, some r.2, true⟩ else ⟨false, none, false⟩
    | .folder => ⟨true, none, false⟩

/-- The per-chapter loop of `_download_manga_async` over the chapters not
skipped by the history store: each chapter is processed in turn and failures
are isolated, so every chapter produces an outcome. -/
def processChapters (fmt : OutFormat) (decodeOk : String → Bool)
    (jobs : List (List String × (Nat → Bool) × List (String × String))) :
    List ChapterOutcome :=
  jobs.map fun j => downloadSingleChapter fmt decodeOk j.1 j.2.1 j.2.2

end Yomi

namespace Yomi

/-- Concrete attempt environment: first attempt is rejected (403), second is
accepted. -/
def envSecondOk : Nat → AttemptOutcome := fun i =>
  if i = 1 then .resp 200 10 10 else .resp 403 0 0

/-- Decode environment in which every webp file decodes successfully. -/
def decodeAlways : String → Bool := fun _ => true

/-- Concrete chapter directory with pages downloaded out of order. -/
def filesCbz : List String := ["003.jpg", "001.jpg", "002.jpg"]

/-- Concrete chapter directory with five JPEGs and two WEBPs. -/
def files7 : List String :=
  ["001.jpg", "002.jpg", "003.jpg", "004.jpg", "005.jpg", "007.webp", "006.webp"]

/-- Concrete similarity function assigning every pair the ratio 0. -/
def ratioZero : String → String → PyNum := fun _ _ => pyNat 0

/-- Concrete one-entry sites table. -/
def cfgMangadex : List (String × SiteData) := [("mangadex", ⟨"MangaDex"⟩)]

/-- Concrete sites table whose key begins with "http". -/
def cfgHttpKey : List (String × SiteData) := [("httpdemo", ⟨"HttpDemo"⟩)]

/-- Concrete chapter list titled Chapter 9 through Chapter 13. -/
def chs910 : List Chapter :=
  [⟨"Chapter 9", "u9"⟩, ⟨"Chapter 10", "u10"⟩, ⟨"Chapter 11", "u11"⟩,
    ⟨"Chapter 12", "u12"⟩, ⟨"Chapter 13", "u13"⟩]

/-- Download environment in which every page download fails. -/
def dlNever : Nat → Bool := fun _ => false

/-- Concrete nonempty chapter metadata record. -/
def metaW : List (String × String) := [("series", "Solo Leveling"), ("number", "1")]

/-- Concrete one-page chapter page list. -/
def pagesOne : List String := ["https://img.example/p1.jpg"]

end Yomi

namespace Yomi

/-- C1: `download_image` fails only after attempting all three Referer
strategies, in the fixed order (chapter hint, empty, scheme+host of the asset
URL); it succeeds at the first strategy whose response has status 200, a
nonempty body and a nonempty written file, attempting none of the later
strategies; any other outcome (including an exception) advances silently to
the next strategy. -/
theorem download_image_retry_spec (env : Nat → AttemptOutcome) (url : String)
    (hint : Option String) :
    ((download_image env url hint).1 = false ↔ ∀ i, i < 3 → acceptedAttempt (env i) = false)
    ∧ ((download_image env url hint).1 = false →
        (download_image env url hint).2 = [refererHint hint, "", rootDomain (pyStrip url)])
    ∧ (∀ i, i < 3 → acceptedAttempt (env i) = true →
        (∀ j, j < i → acceptedAttempt (env j) = false) →
        download_image env url hint = (true, (strategies url hint).take (i + 1))) := by
  cases h0 : acceptedAttempt (env 0) <;> cases h1 : acceptedAttempt (env 1) <;>
    cases h2 : acceptedAttempt (env 2) <;>
    refine ⟨⟨fun hf i hi => ?_, fun hall => ?_⟩, fun hf => ?_, fun i hi hacc hbefore => ?_⟩ <;>
    simp_all [download_image, strategies, attemptLoop] <;>
    (interval_cases i <;> simp_all)

/-- Witness for C1: in an environment whose first attempt is rejected and
whose second attempt is accepted, `download_image` succeeds after attempting
exactly the first two strategies. -/
theorem download_image_retry_spec_witness :
    acceptedAttempt (envSecondOk 1) = true
    ∧ download_image envSecondOk "https://img.example/p.jpg" (some "https://site.example/ch1") =
        (true, ["https://site.example/ch1", ""]) := by
  have h :=
    (download_image_retry_spec envSecondOk "https://img.example/p.jpg"
      (some "https://site.example/ch1")).2.2 1 (by omega) (by decide)
      (by intro j hj; interval_cases j; decide)
  exact ⟨by decide, by rw [h]; decide⟩

/-- Sorting a list of filenames depends only on the multiset of filenames. -/
theorem pySorted_perm_eq {l₁ l₂ : List String} (h : l₁.Perm l₂) :
    pySorted l₁ = pySorted l₂ :=
  List.eq_of_perm_of_sorted
    ((List.perm_insertionSort _ _).trans (h.trans (List.perm_insertionSort _ _).symm))
    (List.sorted_insertionSort _ _) (List.sorted_insertionSort _ _)

/-- C4: `create_cbz_archive` succeeds and writes the directory's files first,
as a sorted permutation of the filenames (relative paths), so the entry order
is a deterministic function of the filenames: permuting the download
completion order leaves the archive unchanged. -/
theorem create_cbz_archive_spec (files files' : List String)
    (md : List (String × String)) :
    (create_cbz_archive files md).1 = true
    ∧ ((create_cbz_archive files md).2.take files.length).Perm files
    ∧ List.Sorted fileLe ((create_cbz_archive files md).2.take files.length)
    ∧ (files.Perm files' → create_cbz_archive files md = create_cbz_archive files' md) := by
  have htake : (create_cbz_archive files md).2.take files.length = pySorted files := by
    have hlen : files.length = (pySorted files).length :=
      (List.length_insertionSort fileLe files).symm
    rw [create_cbz_archive]
    rw [hlen]
    exact List.take_left _ _
  refine ⟨rfl, ?_, ?_, ?_⟩
  · rw [htake]; exact List.perm_insertionSort _ _
  · rw [htake]; exact List.sorted_insertionSort _ _
  · intro hperm
    rw [create_cbz_archive, create_cbz_archive, pySorted_perm_eq hperm]

/-- Witness for C4: packaging pages downloaded in the order 003, 001, 002
produces an archive whose entries read back as 001.jpg, 002.jpg, 003.jpg,
and the same archive as the already-ordered directory. -/
theorem create_cbz_archive_spec_witness :
    filesCbz.Perm ["001.jpg", "002.jpg", "003.jpg"]
    ∧ create_cbz_archive filesCbz [] = create_cbz_archive ["001.jpg", "002.jpg", "003.jpg"] []
    ∧ (create_cbz_archive filesCbz []).2 = ["001.jpg", "002.jpg", "003.jpg"] := by
  have hperm : filesCbz.Perm ["001.jpg", "002.jpg", "003.jpg"] := by decide
  exact ⟨hperm, (create_cbz_archive_spec filesCbz _ []).2.2.2 hperm, by decide⟩

/-- Accepted webp files are accepted image files. -/
theorem isImageFile_of_webp {f : String} (h : isWebpFile f = true) :
    isImageFile f = true := by
  simp only [isImageFile, isWebpFile] at *
  simp [h]

/-- Characterization of the image-collection loop when every webp decodes:
pages are the accepted files in order with webp names transcoded, and exactly
the webp originals are removed. -/
theorem pdfCollect_eq (dec : String → Bool) (hdec : ∀ f, dec f = true)
    (l : List String) :
    pdfCollect dec l =
      ((l.filter isImageFile).map (fun f => if isWebpFile f then webpToJpg f else f),
        l.filter isWebpFile) := by
  induction l with
  | nil => rfl
  | cons f rest ih =>
    cases hw : isWebpFile f with
    | true =>
      have hi := isImageFile_of_webp hw
      simp [pdfCollect, hdec f, hw, hi, ih, List.filter_cons]
    | false =>
      cases hi : isImageFile f with
      | true => simp [pdfCollect, hw, hi, ih, List.filter_cons]
      | false => simp [pdfCollect, hw, hi, ih, List.filter_cons]

/-- C8: when the image library decodes every file, `create_pdf_document`
composes exactly the accepted image files (jpg/jpeg/png/webp), sorted
lexicographically, with each webp transcoded to a JPEG sibling and the webp
original deleted before composition; it fails exactly when no accepted image
exists. -/
theorem create_pdf_document_spec (dec : String → Bool) (files : List String)
    (hdec : ∀ f, dec f = true) :
    (create_pdf_document dec files).pages =
        ((pySorted files).filter isImageFile).map
          (fun f => if isWebpFile f then webpToJpg f else f)
    ∧ (create_pdf_document dec files).removed = (pySorted files).filter isWebpFile
    ∧ ((create_pdf_document dec files).ok = false ↔
        (pySorted files).filter isImageFile = []) := by
  have hc := pdfCollect_eq dec hdec (pySorted files)
  refine ⟨?_, ?_, ?_⟩
  · simp [create_pdf_document, hc]
  · simp [create_pdf_document, hc]
  · simp [create_pdf_document, hc, List.isEmpty_iff, List.map_eq_nil_iff]

/-- Witness for C8: a directory of five JPEGs and two WEBPs yields a
successful document of exactly seven pages, with the two webp source files
removed from disk. -/
theorem create_pdf_document_spec_witness :
    (create_pdf_document decodeAlways files7).ok = true
    ∧ (create_pdf_document decodeAlways files7).pages.length = 7
    ∧ (create_pdf_document decodeAlways files7).removed = ["006.webp", "007.webp"] := by
  have h := create_pdf_document_spec decodeAlways files7 (fun _ => rfl)
  refine ⟨?_, ?_, ?_⟩
  · cases hok : (create_pdf_document decodeAlways files7).ok with
    | true => rfl
    | false => exact absurd (h.2.2.1 hok) (by decide)
  · rw [h.1]; decide
  · rw [h.2.1]; decide

/-- C5 counterexample: with a table containing the key "httpdemo", the input
"httpdemo" normalizes to that key exactly, yet the resolver returns it as a
direct URL (the startswith-"http" check fires first) instead of finalizing
the source, so the claim fails as stated. -/
theorem resolve_exact_key_cex :
    normalizeInput "httpdemo" = "httpdemo"
    ∧ (lookupKey cfgHttpKey "httpdemo").isSome = true
    ∧ (resolveTarget ratioZero cfgHttpKey 1 "httpdemo").outcome = ResOutcome.direct "httpdemo"
    ∧ (resolveTarget ratioZero cfgHttpKey 1 "httpdemo").outcome ≠
        ResOutcome.finalized "httpdemo" := by
  decide

/-- C5 (amended with the startswith-"http" precondition): an input that does
not start with "http" and whose normalized form is a table key is finalized
directly, with no similarity score computed and no prompt. -/
theorem resolve_exact_key_spec (ratio : String → String → PyNum)
    (config : List (String × SiteData)) (choice : Nat) (input : String)
    (h1 : strStartsWith input "http" = false)
    (h2 : (lookupKey config (normalizeInput input)).isSome = true) :
    resolveTarget ratio config choice input =
      ⟨.finalized (normalizeInput input), 0, false⟩ := by
  simp [resolveTarget, h1, h2]

/-- Witness for C5 (amended): "MangaDex" normalizes to the key "mangadex" and
is finalized without scoring or prompting. -/
theorem resolve_exact_key_spec_witness :
    strStartsWith "MangaDex" "http" = false
    ∧ (lookupKey cfgMangadex (normalizeInput "MangaDex")).isSome = true
    ∧ resolveTarget ratioZero cfgMangadex 1 "MangaDex" =
        ⟨.finalized "mangadex", 0, false⟩ := by
  have h := resolve_exact_key_spec ratioZero cfgMangadex 1 "MangaDex" (by decide) (by decide)
  exact ⟨by decide, by decide, by rw [h]; decide⟩

/-- A score that is at most 40 fails the strict `score > 40` threshold. -/
theorem pyNumLt_eq_false_of_le {a b : PyNum} (h : pyNumLe a b = true) :
    pyNumLt b a = false := by
  simp only [pyNumLe, decide_eq_true_eq] at h
  simp only [pyNumLt, decide_eq_false_iff_not]
  omega

/-- C6: a non-URL input that is not an exact key and for which every site's
score is at most 40 resolves to the raw input as a literal URL, after scoring
every site (two ratios each) and without prompting or erroring. -/
theorem resolve_no_candidates_spec (ratio : String → String → PyNum)
    (config : List (String × SiteData)) (choice : Nat) (input : String)
    (h1 : strStartsWith input "http" = false)
    (h2 : (lookupKey config (normalizeInput input)).isSome = false)
    (h3 : ∀ p ∈ config,
      pyNumLe (siteScore ratio (normalizeInput input) p.1 p.2) (pyNat 40) = true) :
    resolveTarget ratio config choice input = ⟨.literal input, 2 * config.length, false⟩ := by
  have hm : (config.map fun p =>
      (siteScore ratio (normalizeInput input) p.1 p.2, p.1, p.2.name)).filter
        (fun t => pyNumLt (pyNat 40) t.1) = [] := by
    rw [List.filter_eq_nil_iff]
    intro t ht
    obtain ⟨p, hp, rfl⟩ := List.mem_map.1 ht
    simp [pyNumLt_eq_false_of_le (h3 p hp)]
  simp [resolveTarget, h1, h2, hm]

/-- Witness for C6: the input "zzzz" against a one-site table under the zero
similarity function falls back to the literal URL "zzzz". -/
theorem resolve_no_candidates_spec_witness :
    resolveTarget ratioZero cfgMangadex 1 "zzzz" = ⟨.literal "zzzz", 2, false⟩ := by
  have h := resolve_no_candidates_spec ratioZero cfgMangadex 1 "zzzz"
    (by decide) (by decide) (by decide)
  simpa using h

/-- C7 counterexample: "ftp://example.com" starts with a URL scheme, but the
resolver does not return it unchanged as already resolved: it consults the
table and computes the fuzzy similarity scores (two per site). -/
theorem resolve_direct_url_cex :
    startsWithUrlScheme "ftp://example.com" = true
    ∧ (resolveTarget ratioZero cfgMangadex 1 "ftp://example.com").scoresComputed ≠ 0
    ∧ (resolveTarget ratioZero cfgMangadex 1 "ftp://example.com").outcome ≠
        ResOutcome.direct "ftp://example.com" := by
  decide

/-- C7 (amended from "starts with a URL scheme" to "starts with http"): an
input starting with "http" is returned unchanged as already resolved, with
no score computed, no prompt, and no finalization (hence no mirror
discovery). -/
theorem resolve_direct_url_spec (ratio : String → String → PyNum)
    (config : List (String × SiteData)) (choice : Nat) (input : String)
    (h : strStartsWith input "http" = true) :
    resolveTarget ratio config choice input = ⟨.direct input, 0, false⟩ := by
  simp [resolveTarget, h]

/-- Witness for C7 (amended): a https URL is returned unchanged. -/
theorem resolve_direct_url_spec_witness :
    resolveTarget ratioZero cfgMangadex 1 "https://example.com/manga" =
      ⟨.direct "https://example.com/manga", 0, false⟩ := by
  exact resolve_direct_url_spec ratioZero cfgMangadex 1 "https://example.com/manga" (by decide)

/-- C3: a range string that parses keeps exactly the chapters whose title
contains a first decimal number within the bounds (chapters without an
extractable number are excluded), and a dash-free string parsing as a float
gives a degenerate range with end equal to start. -/
theorem filter_chapters_range_spec (chs : List Chapter) (rs : String) (a b : PyNum)
    (h : parseRange rs = some (a, b)) :
    filter_chapters chs (some rs) =
      chs.filter (fun c =>
        match firstNumber c.title with
        | some n => pyNumLe a n && pyNumLe n b
        | none => false)
    ∧ (∀ (s : String) (x : PyNum), splitOnChar '-' s.data = [s.data] →
        parsePyFloat s = some x → parseRange s = some (x, x)) := by
  constructor
  · have hne : rs.data.isEmpty = false := by
      cases rs with
      | mk d =>
        cases d with
        | nil =>
          have hnil : parseRange (String.mk []) = none := rfl
          rw [hnil] at h
          exact Option.noConfusion h
        | cons c cs => rfl
    simp only [filter_chapters, hne, Bool.false_eq_true, if_false, h]
    rfl
  · intro s x hsplit hparse
    simp [parseRange, hsplit, hparse]

/-- Witness for C3: the range "10-12" over chapters titled Chapter 9 through
Chapter 13 keeps exactly Chapter 10, Chapter 11 and Chapter 12. -/
theorem filter_chapters_range_spec_witness :
    parseRange "10-12" = some (pyNat 10, pyNat 12)
    ∧ filter_chapters chs910 (some "10-12") =
        [⟨"Chapter 10", "u10"⟩, ⟨"Chapter 11", "u11"⟩, ⟨"Chapter 12", "u12"⟩] := by
  refine ⟨by decide, ?_⟩
  rw [(filter_chapters_range_spec chs910 "10-12" (pyNat 10) (pyNat 12) (by decide)).1]
  decide

/-- C9: a range string that fails to parse as a float range leaves the
chapter list unfiltered (and, the model being total, raises nothing). -/
theorem filter_chapters_malformed_spec (chs : List Chapter) (rs : String)
    (h : parseRange rs = none) :
    filter_chapters chs (some rs) = chs := by
  cases hne : rs.data.isEmpty with
  | true => simp [filter_chapters, hne]
  | false => simp [filter_chapters, hne, h]

/-- Witness for C9: the malformed range "abc" keeps all five chapters. -/
theorem filter_chapters_malformed_spec_witness :
    parseRange "abc" = none ∧ filter_chapters chs910 (some "abc") = chs910 := by
  exact ⟨by decide, filter_chapters_malformed_spec chs910 "abc" (by decide)⟩

/-- With every download failed, no page file exists in the chapter folder. -/
theorem writtenFiles_eq_nil (pages : List String) (dlOk : Nat → Bool)
    (h : ∀ i, dlOk i = false) : writtenFiles pages dlOk = [] := by
  rw [writtenFiles, List.filterMap_eq_nil_iff]
  intro p _
  simp [h p.1]

/-- C2 counterexample: in cbz format, a chapter whose every page download
fails is still packaged (into a metadata-only archive) and marked completed
in the history store, so the claim fails as stated for the all-downloads-
failed case. -/
theorem chapter_all_failed_cex :
    (downloadSingleChapter .cbz decodeAlways pagesOne dlNever metaW).marked = true
    ∧ (downloadSingleChapter .cbz decodeAlways pagesOne dlNever metaW).archiveEntries =
        some ["ComicInfo.xml"] := by
  decide

/-- C2 (amended): an empty page list always fails the chapter (no completion
mark, no archive, no folder deletion) and the run continues; when every page
download fails, the chapter fails in pdf format, but in cbz format it is
marked completed anyway (see the counterexample) and in folder format it is
marked completed; the per-chapter loop produces an outcome for every chapter
(no crash). -/
theorem chapter_failure_spec (fmt : OutFormat) (dec : String → Bool)
    (pages : List String) (dlOk : Nat → Bool) (meta : List (String × String))
    (jobs : List (List String × (Nat → Bool) × List (String × String))) :
    downloadSingleChapter fmt dec [] dlOk meta = ⟨false, none, false⟩
    ∧ ((∀ i, dlOk i = false) →
        downloadSingleChapter .pdf dec pages dlOk meta = ⟨false, none, false⟩)
    ∧ ((∀ i, dlOk i = false) → pages ≠ [] →
        (downloadSingleChapter .cbz dec pages dlOk meta).marked = true)
    ∧ (pages ≠ [] → (downloadSingleChapter .folder dec pages dlOk meta).marked = true)
    ∧ (processChapters fmt dec jobs).length = jobs.length := by
  refine ⟨by simp [downloadSingleChapter], ?_, ?_, ?_, by simp [processChapters]⟩
  · intro hfail
    cases pages with
    | nil => simp [downloadSingleChapter]
    | cons p ps =>
      simp [downloadSingleChapter, writtenFiles_eq_nil _ _ hfail, create_pdf_document,
        pySorted, pdfCollect]
  · intro hfail hne
    cases pages with
    | nil => exact absurd rfl hne
    | cons p ps => simp [downloadSingleChapter, create_cbz_archive]
  · intro hne
    cases pages with
    | nil => exact absurd rfl hne
    | cons p ps => simp [downloadSingleChapter]

/-- Witness for C2 (amended): with a one-page chapter whose download fails,
pdf format fails the chapter while folder format marks it completed. -/
theorem chapter_failure_spec_witness :
    downloadSingleChapter .pdf decodeAlways pagesOne dlNever metaW = ⟨false, none, false⟩
    ∧ (downloadSingleChapter .folder decodeAlways pagesOne dlNever metaW).marked = true := by
  have h := chapter_failure_spec .pdf decodeAlways pagesOne dlNever metaW []
  exact ⟨h.2.1 (fun _ => rfl), h.2.2.2.1 (by decide)⟩

/-- C10: packaging an empty directory with a nonempty metadata record
succeeds with `ComicInfo.xml` as the only entry; hence in cbz format a
chapter whose page downloads all failed is packaged into a page-less
archive, its folder is deleted, and it is marked completed. -/
theorem cbz_empty_chapter_completed (dec : String → Bool) (pages : List String)
    (dlOk : Nat → Bool) (meta : List (String × String))
    (hp : pages ≠ []) (hd : ∀ i, dlOk i = false) (hm : meta ≠ []) :
    create_cbz_archive [] meta = (true, ["ComicInfo.xml"])
    ∧ downloadSingleChapter .cbz dec pages dlOk meta =
        ⟨true, some ["ComicInfo.xml"], true⟩ := by
  have hmeta : meta.isEmpty = false := by
    cases meta with
    | nil => exact absurd rfl hm
    | cons m ms => rfl
  have harch : create_cbz_archive [] meta = (true, ["ComicInfo.xml"]) := by
    simp [create_cbz_archive, pySorted, hmeta]
  refine ⟨harch, ?_⟩
  cases pages with
  | nil => exact absurd rfl hp
  | cons p ps =>
    simp [downloadSingleChapter, writtenFiles_eq_nil _ _ hd, harch]

/-- Witness for C10: the concrete one-page chapter with every download
failed, in cbz format with a nonempty metadata record. -/
theorem cbz_empty_chapter_completed_witness :
    downloadSingleChapter .cbz decodeAlways pagesOne dlNever metaW =
      ⟨true, some ["ComicInfo.xml"], true⟩ := by
  exact (cbz_empty_chapter_completed decodeAlways pagesOne dlNever metaW
    (by decide) (fun _ => rfl) (by decide)).2

end Yomi
